import Mathlib

/-!
Verification development for the DankTimesBot per-chat game-state machine.

The definitions below are a shallow embedding of `src/chat/chat.ts`.
JavaScript numbers are modelled as `Int` (scores, timestamps, ids of users),
`Nat` (hours, minutes) or `ℚ` (values on which fractional arithmetic is
performed, such as the multiplier and the chat id before validation).
`Math.round` is round-half-toward-positive-infinity, modelled by `jsRound`.
The JavaScript `Map` of users is modelled as an insertion-ordered list.
The plugin host (an external collaborator) is modelled as an environment
of pure functions returning reply strings; every operation additionally
returns the list of extension-point events it fired.
-/

namespace DankTimesBot

/-- JavaScript `Math.round`: rounds half toward positive infinity. -/
def jsRound (q : ℚ) : Int := Int.floor (q + 1/2)

/-- JavaScript truncation toward zero, used by the `%` remainder operator. -/
def jsTrunc (q : ℚ) : Int := if 0 ≤ q then Int.floor q else Int.ceil q

/-- JavaScript `q % 1`: the remainder after truncation toward zero. -/
def jsRemOne (q : ℚ) : ℚ := q - jsTrunc q

/-- JavaScript `String.prototype.toUpperCase`, character by character (the
texts involved are ASCII). -/
def jsToUpper (s : String) : String := ⟨s.data.map Char.toUpper⟩

/-- Modelled from the spec: `util.padNumber` (src/util is not in src/):
zero-pads 0–9, identity for numbers ≥ 10. -/
def padNumber (n : Nat) : String :=
  if n < 10 then "0" ++ toString n else toString n

/-- Modelled from the spec: the `User` record (src/chat/user/user.ts is not
in src/): identity, display name, score, delta since last leaderboard
render, unix time of last score mutation, and the per-slot `called` flag.
A freshly created user has score 0, zero delta and `called = false`. -/
structure User where
  id : Int
  name : String
  score : Int
  lastScoreChange : Int
  lastScoreTimestamp : Int
  called : Bool
deriving DecidableEq

/-- Modelled from the spec: `User.addToScore` adds the delta to the score
and to the diff counter and records the timestamp of the mutation. -/
def User.addToScore (u : User) (delta : Int) (timestamp : Int) : User :=
  { u with
    score := u.score + delta
    lastScoreChange := u.lastScoreChange + delta
    lastScoreTimestamp := timestamp }

/-- Modelled from the spec: `User.resetScore` sets the score to 0. -/
def User.resetScore (u : User) : User := { u with score := 0 }

/-- Modelled from the spec: `User.resetLastScoreChange` zeroes the diff
counter. -/
def User.resetLastScoreChange (u : User) : User := { u with lastScoreChange := 0 }

/-- Modelled from the spec: a `DankTime` time slot
(src/dank-time/dank-time.ts is not in src/): hour, minute, alias texts and
point value. -/
structure DankTime where
  hour : Nat
  minute : Nat
  texts : List String
  points : Int
deriving DecidableEq

/-- Modelled from the spec: `DankTime.hasText` is an exact match of the
candidate against any stored alias. -/
def DankTime.hasText (dt : DankTime) (text : String) : Bool :=
  dt.texts.contains text

/-- Modelled from the spec: one row of a leaderboard snapshot, captured by
value from a `User`. -/
structure LeaderboardEntry where
  id : Int
  name : String
  score : Int
  lastScoreChange : Int
deriving DecidableEq

/-- Modelled from the spec: a `Leaderboard` snapshot of the users
(src/chat/leaderboard/leaderboard.ts is not in src/). -/
structure Leaderboard where
  entries : List LeaderboardEntry
deriving DecidableEq

/-- Modelled from the spec: snapshot the users by value. -/
def Leaderboard.ofUsers (users : List User) : Leaderboard :=
  ⟨users.map (fun u => ⟨u.id, u.name, u.score, u.lastScoreChange⟩)⟩

/-- Stable insertion of a leaderboard entry into a score-descending list. -/
def insertEntryByScore (e : LeaderboardEntry) : List LeaderboardEntry → List LeaderboardEntry
  | [] => [e]
  | f :: rest => if e.score > f.score then e :: f :: rest else f :: insertEntryByScore e rest

/-- Modelled from the spec: render ranked lines `rank. name — score`
decorated with the score delta and a new-entrant marker when a previous
snapshot is present. -/
def Leaderboard.render (lb : Leaderboard) (previous : Option Leaderboard) : String :=
  let sorted := lb.entries.foldl (fun acc e => insertEntryByScore e acc) []
  let prevIds : List Int := match previous with
    | some p => p.entries.map (fun e => e.id)
    | none => []
  String.intercalate "\n" (sorted.enum.map (fun p =>
    toString (p.1 + 1) ++ ". " ++ p.2.name ++ " — " ++ toString p.2.score ++
    (match previous with
     | some _ =>
        " (" ++ toString p.2.lastScoreChange ++ ")" ++
        (if prevIds.contains p.2.id then "" else " (new)")
     | none => "")))

/-- The current timezone-local clock reading delivered by the moment
collaborator: local hour, local minute and unix seconds. -/
structure Now where
  hours : Nat
  minutes : Nat
  unix : Int
deriving DecidableEq

/-- The extension-point events of the plugin host, with their payloads. -/
inductive PluginEvent where
  | postInit
  | preMessage (text : String)
  | postMessage (text : String)
  | userScoreChange (userId : Int) (delta : Int)
  | leaderboardReset
deriving DecidableEq

/-- The injected collaborators: the plugin-host trigger (returns reply
strings, side-effect-visible only through its return value) and the pure
text-cleaning utility. -/
structure Env where
  trigger : PluginEvent → List String
  cleanText : String → String

/-- The `Chat` state. The heterogeneous settings map of the source is
modelled as one typed field per core setting, as the spec's design notes
prescribe for reimplementation. -/
structure Chat where
  id : ℚ
  running : Bool
  lastHour : Nat
  lastMinute : Nat
  users : List User
  dankTimes : List DankTime
  randomDankTimes : List DankTime
  awaitingResetConfirmation : Int
  lastLeaderboard : Option Leaderboard
  timezone : String
  multiplier : ℚ
  numberOfRandomTimes : Nat
  pointsPerRandomTime : Int
  hardcoreMode : Bool
  handicaps : Bool
  firstNotifications : Bool
deriving DecidableEq

/-- Lookup of a user by id (first match in insertion order, as for a JS
`Map`). -/
def findUser (users : List User) (userId : Int) : Option User :=
  users.find? (fun u => u.id == userId)

/-- In-place update of the user with the given id, preserving insertion
order (JS `Map.set` on an existing key). -/
def updateUser (users : List User) (userId : Int) (f : User → User) : List User :=
  users.map (fun u => if u.id == userId then f u else u)

/-- The user-creation and name-refresh steps at the top of
`handleDankTimeInputMessage`: create the user if absent (appended, as JS
`Map.set` of a new key) and update the stored name to the sent one. -/
def ensureUser (c : Chat) (userId : Int) (userName : String) : Chat :=
  let c1 := if c.users.any (fun u => u.id == userId) then c
            else { c with users := c.users ++ [⟨userId, userName, 0, 0, 0, false⟩] }
  { c1 with users := updateUser c1.users userId (fun u => { u with name := userName }) }

/-- Stable insertion of a user into a score-descending list, matching the
stable `Array.sort` by `User.compare` (score descending, insertion-order
tie-break). -/
def insertByScore (u : User) : List User → List User
  | [] => [u]
  | v :: rest => if u.score > v.score then u :: v :: rest else v :: insertByScore u rest

/-- `Chat.sortedUsers`: the users sorted by score, best first. -/
def sortedUsers (c : Chat) : List User :=
  c.users.foldl (fun acc u => insertByScore u acc) []

/-- JavaScript `Array.slice(-n)` for a non-negative count `n`: the last
`n` elements, the whole array when `n` is 0 (since `-0 === 0`) or when
`n` exceeds the length. -/
def jsSliceFromEnd {α : Type} (l : List α) (n : Int) : List α :=
  if n = 0 then l else l.drop (l.length - n.toNat)

/-- `Chat.userDeservesHandicapBonus`: requires the handicaps setting and
at least two users; the user must be in the bottom `round(count × 0.25)`
slice of the score-sorted users. -/
def userDeservesHandicapBonus (c : Chat) (userId : Int) : Bool :=
  if !c.handicaps || c.users.length < 2 then false
  else
    let sorted := sortedUsers c
    let noOfHandicapped := jsRound ((sorted.length : ℚ) * (1/4))
    let handicapped := jsSliceFromEnd sorted noOfHandicapped
    handicapped.any (fun u => u.id == userId)

/-- `Chat.getDankTimesByText`: all normal and random slots whose alias set
contains the text, normal slots first. -/
def getDankTimesByText (c : Chat) (text : String) : List DankTime :=
  (c.dankTimes ++ c.randomDankTimes).filter (fun dt => dt.hasText text)

/-- `Chat.leaderboardChanged`: true iff some user has a nonzero diff
counter. -/
def leaderboardChanged (c : Chat) : Bool :=
  c.users.any (fun u => u.lastScoreChange != 0)

/-- `Chat.generateLeaderboard`: snapshots the users, renders against the
previous snapshot, stores the new snapshot and zeroes every user's diff
counter. Returns the updated chat and the rendered string. -/
def generateLeaderboard (c : Chat) (final : Bool) : Chat × String :=
  let oldLb := c.lastLeaderboard
  let newLb := Leaderboard.ofUsers c.users
  let s := "<b>🏆 " ++ (if final then "FINAL " else "") ++ "LEADERBOARD</b>\n" ++
    newLb.render oldLb
  ({ c with
      lastLeaderboard := some newLb
      users := c.users.map User.resetLastScoreChange }, s)

/-- `Chat.handleAwaitingReset`: clears the confirmation window
unconditionally; on a case-insensitive "YES" renders a final leaderboard,
resets every score and fires the leaderboard-reset extension point. -/
def handleAwaitingReset (c : Chat) (env : Env) (userId : Int) (msgText : String) :
    Chat × List String × List PluginEvent :=
  if c.awaitingResetConfirmation == userId then
    let c1 : Chat := { c with awaitingResetConfirmation := -1 }
    if jsToUpper msgText == "YES" then
      let pair := generateLeaderboard c1 true
      let c3 : Chat := { pair.1 with users := pair.1.users.map User.resetScore }
      (c3, ["Leaderboard has been reset!\n\n" ++ pair.2] ++ env.trigger .leaderboardReset,
       [.leaderboardReset])
    else (c1, [], [])
  else (c, [], [])

/-- Whether a slot's hour and minute equal the current local time. -/
def timeMatches (now : Now) (dt : DankTime) : Bool :=
  now.hours == dt.hour && now.minutes == dt.minute

/-- One step of the running maximum `subtractBy` accumulated over matched
slots that are not the current time. -/
def subtractStep (sb : Int) (dt : DankTime) : Int :=
  if dt.points > sb then dt.points else sb

/-- The body of `handleDankTimeInputMessage` for the first text-matched
slot whose time is now: double points on a newly active slot (with the
called-flag cache reset), a penalty for a repeat claim, or single points
otherwise. -/
def dankTimeBranch (c : Chat) (env : Env) (userId : Int) (now : Now) (dt : DankTime) :
    Chat × List String × List PluginEvent :=
  let uName := ((findUser c.users userId).map User.name).getD ""
  let uCalled := ((findUser c.users userId).map User.called).getD false
  if c.lastHour != dt.hour || c.lastMinute != dt.minute then
    let cReset : Chat :=
      { c with
          users := c.users.map (fun v => { v with called := false })
          lastHour := dt.hour
          lastMinute := dt.minute }
    let bonus := userDeservesHandicapBonus cReset userId
    let score0 : ℚ := (dt.points : ℚ) * c.multiplier
    let award := jsRound (if bonus then score0 * (3/2) else score0)
    ({ cReset with
        users := updateUser cReset.users userId
          (fun v => { v.addToScore award now.unix with called := true }) },
     env.trigger (.userScoreChange userId award) ++
       (if c.firstNotifications then ["👏 " ++ uName ++ " was the first to score!"] else []),
     [.userScoreChange userId award])
  else if uCalled then
    ({ c with
        users := updateUser c.users userId (fun v => v.addToScore (-dt.points) now.unix) },
     env.trigger (.userScoreChange userId (-dt.points)),
     [.userScoreChange userId (-dt.points)])
  else
    let bonus := userDeservesHandicapBonus c userId
    let award := jsRound (if bonus then (dt.points : ℚ) * (3/2) else (dt.points : ℚ))
    ({ c with
        users := updateUser c.users userId
          (fun v => { v.addToScore award now.unix with called := true }) },
     env.trigger (.userScoreChange userId award),
     [.userScoreChange userId award])

/-- The iteration over the text-matched slots: the first slot matching the
current time is handled and the iteration returns; a slot at another time
raises the running punishment maximum; when no slot matched the time, the
punishment is applied. -/
def dankTimeLoop (c : Chat) (env : Env) (userId : Int) (now : Now) :
    List DankTime → Int → Chat × List String × List PluginEvent
  | [], sb =>
      ({ c with users := updateUser c.users userId (fun v => v.addToScore (-sb) now.unix) },
       env.trigger (.userScoreChange userId (-sb)),
       [.userScoreChange userId (-sb)])
  | dt :: rest, sb =>
      if timeMatches now dt then dankTimeBranch c env userId now dt
      else dankTimeLoop c env userId now rest (subtractStep sb dt)

/-- `Chat.handleDankTimeInputMessage`: no-op when no slot alias matches
the text; otherwise ensures the user exists and iterates the matches. -/
def handleDankTimeInputMessage (c : Chat) (env : Env) (userId : Int)
    (userName msgText : String) (now : Now) : Chat × List String × List PluginEvent :=
  let matched := getDankTimesByText c msgText
  if matched.isEmpty then (c, [], [])
  else dankTimeLoop (ensureUser c userId userName) env userId now matched 0

/-- `Chat.processMessage`: the stale-message guard, the pre-message
extension point, dispatch to the reset-confirmation handler or (when
running) the dank-time handler, text cleaning and the post-message
extension point. Returns the new state, the reply strings and the fired
extension-point events. -/
def processMessage (c : Chat) (env : Env) (userId : Int) (userName msgText : String)
    (msgUnixTime : Int) (now : Now) : Chat × List String × List PluginEvent :=
  if now.unix - msgUnixTime ≥ 60 then (c, [], [])
  else
    let preOut := env.trigger (.preMessage msgText)
    let r :=
      if c.awaitingResetConfirmation == userId then
        handleAwaitingReset c env userId msgText
      else if c.running then
        handleDankTimeInputMessage c env userId userName msgText now
      else (c, [], [])
    let cleaned := env.cleanText msgText
    let postOut := env.trigger (.postMessage cleaned)
    (r.1, preOut ++ r.2.1 ++ postOut,
     [.preMessage msgText] ++ r.2.2 ++ [.postMessage cleaned])

/-- `Chat.hardcoreModeCheck`: when the hardcore setting is on, every user
whose last score mutation is at least a day old loses
`max(round(score × 0.1), 10)` points, timestamped now. -/
def hardcoreModeCheck (c : Chat) (timestamp : Int) : Chat :=
  if c.hardcoreMode then
    { c with
        users := c.users.map (fun u =>
          if timestamp - u.lastScoreTimestamp ≥ 24 * 60 * 60 then
            u.addToScore (-(max (jsRound ((u.score : ℚ) * (1/10))) 10)) timestamp
          else u) }
  else c

/-- `Chat.hourAndMinuteAlreadyRegistered`: whether a normal or (so far
generated) random slot occupies the pair. -/
def hourAndMinuteAlreadyRegistered (normal randoms : List DankTime)
    (hour minute : Nat) : Bool :=
  normal.any (fun dt => dt.hour == hour && dt.minute == minute) ||
  randoms.any (fun dt => dt.hour == hour && dt.minute == minute)

/-- `Math.floor(r * n)` for a random draw `r`, as a natural number. -/
def floorScale (r : ℚ) (n : Nat) : Nat := (Int.floor (r * (n : ℚ))).toNat

/-- The generation loop of `generateRandomDankTimes`. Each iteration
consumes one pair of `Math.random()` draws: the first scaled by 23 is
added to the current local hour (mod 24, from `now.add(..., "hours")`),
the second scaled by 59 becomes the minute. A pair colliding with a
normal slot or an already-generated random slot is dropped without
retry. -/
def genRandomLoop (normal : List DankTime) (nowHour : Nat) (pts : Int) :
    List (ℚ × ℚ) → List DankTime → List DankTime
  | [], acc => acc
  | (r1, r2) :: rest, acc =>
      let hour := (nowHour + floorScale r1 23) % 24
      let minute := floorScale r2 59
      if hourAndMinuteAlreadyRegistered normal acc hour minute then
        genRandomLoop normal nowHour pts rest acc
      else
        genRandomLoop normal nowHour pts rest
          (acc ++ [⟨hour, minute, [padNumber hour ++ padNumber minute], pts⟩])

/-- `Chat.generateRandomDankTimes`: clears the previous random slots and
runs `numberOfRandomTimes` iterations of the generation loop. The
`draws` list models the `Math.random()` stream, one pair per iteration. -/
def generateRandomDankTimes (c : Chat) (nowHour : Nat) (draws : List (ℚ × ℚ)) :
    Chat × List DankTime :=
  let result := genRandomLoop c.dankTimes nowHour c.pointsPerRandomTime
    (draws.take c.numberOfRandomTimes) []
  ({ c with randomDankTimes := result }, result)

/-- The `Chat` id setter: raises a `RangeError` when `id % 1 !== 0`
(the supplied number is not an integer), otherwise stores the id. -/
def setId (c : Chat) (newId : ℚ) : Except String Chat :=
  if jsRemOne newId ≠ 0 then Except.error "The id must be a whole number!"
  else Except.ok { c with id := newId }

/-! ### Evaluation and structural helper lemmas -/

/-- Evaluation rule for `jsRound` at a concrete rational. -/
lemma jsRound_eq (q : ℚ) (n : ℤ) (h₁ : (n : ℚ) ≤ q + 1/2) (h₂ : q + 1/2 < n + 1) :
    jsRound q = n := by
  rw [jsRound, Int.floor_eq_iff]
  exact ⟨h₁, by exact_mod_cast h₂⟩

/-- Evaluation rule for `floorScale` at a concrete rational. -/
lemma floorScale_eq (r : ℚ) (n : Nat) (k : Nat) (h₁ : (k : ℚ) ≤ r * n)
    (h₂ : r * n < k + 1) : floorScale r n = k := by
  rw [floorScale]
  have h : Int.floor (r * (n : ℚ)) = (k : ℤ) := by
    rw [Int.floor_eq_iff]
    exact ⟨by push_cast; exact h₁, by push_cast; exact h₂⟩
  rw [h]
  simp

@[simp] lemma ensureUser_lastHour (c : Chat) (uid : Int) (n : String) :
    (ensureUser c uid n).lastHour = c.lastHour := by
  simp only [ensureUser]
  split <;> rfl

@[simp] lemma ensureUser_lastMinute (c : Chat) (uid : Int) (n : String) :
    (ensureUser c uid n).lastMinute = c.lastMinute := by
  simp only [ensureUser]
  split <;> rfl

@[simp] lemma ensureUser_multiplier (c : Chat) (uid : Int) (n : String) :
    (ensureUser c uid n).multiplier = c.multiplier := by
  simp only [ensureUser]
  split <;> rfl

@[simp] lemma ensureUser_awaiting (c : Chat) (uid : Int) (n : String) :
    (ensureUser c uid n).awaitingResetConfirmation = c.awaitingResetConfirmation := by
  simp only [ensureUser]
  split <;> rfl

/-- Looking a user up in a list mapped through an id-preserving function. -/
lemma findUser_map (g : User → User) (hg : ∀ v, (g v).id = v.id)
    (l : List User) (uid : Int) :
    findUser (l.map g) uid = (findUser l uid).map g := by
  induction l with
  | nil => rfl
  | cons u t ih =>
      rw [List.map_cons]
      by_cases h : u.id = uid
      · rw [findUser, List.find?_cons_of_pos _ (by simp [hg, h]),
          findUser, List.find?_cons_of_pos _ (by simp [h])]
        rfl
      · rw [findUser, List.find?_cons_of_neg _ (by simp [hg, h]),
          findUser, List.find?_cons_of_neg _ (by simp [h])]
        exact ih

/-- Looking a user up after an in-place update of that same user. -/
lemma findUser_updateUser (f : User → User) (hf : ∀ v, (f v).id = v.id)
    (l : List User) (uid : Int) :
    findUser (updateUser l uid f) uid = (findUser l uid).map f := by
  induction l with
  | nil => rfl
  | cons u t ih =>
      rw [updateUser, List.map_cons]
      by_cases h : u.id = uid
      · have hhead : (if u.id == uid then f u else u) = f u := by simp [h]
        rw [hhead, findUser, List.find?_cons_of_pos _ (by simp [hf, h]),
          findUser, List.find?_cons_of_pos _ (by simp [h])]
        rfl
      · have hhead : (if u.id == uid then f u else u) = u := by simp [h]
        rw [hhead, findUser, List.find?_cons_of_neg _ (by simp [h]),
          findUser, List.find?_cons_of_neg _ (by simp [h])]
        exact ih

/-- Skipping the text-matched slots whose time is not now accumulates the
punishment maximum and leaves the loop otherwise unchanged. -/
lemma dankTimeLoop_skip (c : Chat) (env : Env) (uid : Int) (now : Now)
    (pre rest : List DankTime) (sb : Int)
    (h : ∀ d ∈ pre, timeMatches now d = false) :
    dankTimeLoop c env uid now (pre ++ rest) sb =
      dankTimeLoop c env uid now rest (pre.foldl subtractStep sb) := by
  induction pre generalizing sb with
  | nil => rfl
  | cons d t ih =>
      have hd : timeMatches now d = false := h d (by simp)
      simp only [List.cons_append, dankTimeLoop, hd, Bool.false_eq_true, if_false,
        List.foldl_cons]
      exact ih (subtractStep sb d) (fun e he => h e (List.mem_cons_of_mem _ he))

/-- The punishment accumulator is the running maximum of the point values. -/
lemma foldl_subtractStep_eq_max (l : List DankTime) (sb : Int) :
    l.foldl subtractStep sb = l.foldl (fun a d => max a d.points) sb := by
  induction l generalizing sb with
  | nil => rfl
  | cons d t ih =>
      have h : subtractStep sb d = max sb d.points := by
        rw [subtractStep]
        by_cases h : d.points > sb
        · rw [if_pos h, max_eq_right (le_of_lt h)]
        · rw [if_neg h, max_eq_left (not_lt.mp h)]
      simp only [List.foldl_cons, h, ih]

@[simp] lemma dankTimeBranch_awaiting (c : Chat) (env : Env) (uid : Int) (now : Now)
    (dt : DankTime) :
    (dankTimeBranch c env uid now dt).1.awaitingResetConfirmation =
      c.awaitingResetConfirmation := by
  rw [dankTimeBranch]
  split
  · rfl
  · split <;> rfl

@[simp] lemma dankTimeLoop_awaiting (c : Chat) (env : Env) (uid : Int) (now : Now)
    (l : List DankTime) (sb : Int) :
    (dankTimeLoop c env uid now l sb).1.awaitingResetConfirmation =
      c.awaitingResetConfirmation := by
  induction l generalizing sb with
  | nil => rfl
  | cons d t ih =>
      rw [dankTimeLoop]
      split
      · simp
      · exact ih (subtractStep sb d)

@[simp] lemma handleDankTimeInputMessage_awaiting (c : Chat) (env : Env) (uid : Int)
    (un mt : String) (now : Now) :
    (handleDankTimeInputMessage c env uid un mt now).1.awaitingResetConfirmation =
      c.awaitingResetConfirmation := by
  rw [handleDankTimeInputMessage]
  split
  · rfl
  · rw [dankTimeLoop_awaiting, ensureUser_awaiting]

/-- `findUser_updateUser` specialised to an award that also sets the
called flag. -/
lemma findUser_update_award (l : List User) (uid : Int) (a t : Int) :
    findUser (updateUser l uid (fun v => { v.addToScore a t with called := true }))
        uid =
      (findUser l uid).map (fun v => { v.addToScore a t with called := true }) :=
  findUser_updateUser (fun v => { v.addToScore a t with called := true })
    (fun _ => rfl) l uid

/-- `findUser_updateUser` specialised to a plain score change. -/
lemma findUser_update_add (l : List User) (uid : Int) (a t : Int) :
    findUser (updateUser l uid (fun v => v.addToScore a t)) uid =
      (findUser l uid).map (fun v => v.addToScore a t) :=
  findUser_updateUser (fun v => v.addToScore a t) (fun _ => rfl) l uid

/-- `findUser_map` specialised to the called-flag reset. -/
lemma findUser_map_resetCalled (l : List User) (uid : Int) :
    findUser (l.map (fun v => { v with called := false })) uid =
      (findUser l uid).map (fun v => { v with called := false }) :=
  findUser_map (fun v => { v with called := false }) (fun _ => rfl) l uid

/-- A time-matched slot at the head of the remaining matches is handled
by `dankTimeBranch`, independently of the accumulator and the tail. -/
lemma dankTimeLoop_cons_match (c : Chat) (env : Env) (uid : Int) (now : Now)
    (dt : DankTime) (rest : List DankTime) (sb : Int)
    (h : timeMatches now dt = true) :
    dankTimeLoop c env uid now (dt :: rest) sb = dankTimeBranch c env uid now dt := by
  simp only [dankTimeLoop, h, if_true]

/-- `q % 1` vanishes exactly on the integers. -/
lemma jsRemOne_eq_zero_iff (q : ℚ) : jsRemOne q = 0 ↔ q.den = 1 := by
  rw [jsRemOne, sub_eq_zero]
  constructor
  · intro h
    rw [h, Rat.den_intCast]
  · intro h
    have hn : (q.num : ℚ) = q := (Rat.den_eq_one_iff q).mp h
    rw [← hn, jsTrunc]
    split <;> simp

/-! ### Concrete states used by witnesses and counterexamples -/

/-- A plugin host with no listeners and the identity text cleaner. -/
def stubEnv : Env := { trigger := fun _ => [], cleanText := id }

/-- A quiescent chat with default settings. -/
def baseChat : Chat :=
  { id := 0, running := false, lastHour := 0, lastMinute := 0, users := [],
    dankTimes := [], randomDankTimes := [], awaitingResetConfirmation := -1,
    lastLeaderboard := none, timezone := "Europe/Amsterdam", multiplier := 2,
    numberOfRandomTimes := 0, pointsPerRandomTime := 10, hardcoreMode := false,
    handicaps := false, firstNotifications := false }

/-! ### The claims -/

/-- C6: a `processMessage` call whose message timestamp is at least 60
seconds before the chat-timezone "now" returns the empty sequence, fires
no extension points and leaves the whole chat state (users, scores,
`awaitingResetConfirmation`, `lastHour`, `lastMinute`) unchanged. -/
theorem claim_C6_stale_message_discarded (c : Chat) (env : Env) (userId : Int)
    (userName msgText : String) (msgUnixTime : Int) (now : Now)
    (h : now.unix - msgUnixTime ≥ 60) :
    processMessage c env userId userName msgText msgUnixTime now = (c, [], []) := by
  rw [processMessage, if_pos h]

/-- Witness for C6 at a concrete stale message. -/
theorem claim_C6_witness :
    processMessage baseChat stubEnv 1 "A" "hello" 0 ⟨12, 30, 100⟩ = (baseChat, [], []) :=
  claim_C6_stale_message_discarded baseChat stubEnv 1 "A" "hello" 0 ⟨12, 30, 100⟩ (by decide)

/-- C8: `leaderboardChanged` is true exactly when some user has a nonzero
`lastScoreChange`, and `generateLeaderboard false` followed immediately by
`leaderboardChanged` yields false because the generation resets every
user's `lastScoreChange` to 0. -/
theorem claim_C8_leaderboard_changed (c : Chat) :
    (leaderboardChanged c = true ↔ ∃ u ∈ c.users, u.lastScoreChange ≠ 0) ∧
    leaderboardChanged (generateLeaderboard c false).1 = false ∧
    ∀ u ∈ (generateLeaderboard c false).1.users, u.lastScoreChange = 0 := by
  refine ⟨?_, ?_, ?_⟩
  · simp [leaderboardChanged, List.any_eq_true, bne_iff_ne]
  · simp [leaderboardChanged, generateLeaderboard, List.any_map, Function.comp,
      User.resetLastScoreChange]
  · intro u hu
    rw [generateLeaderboard] at hu
    simp only [List.mem_map] at hu
    obtain ⟨v, -, hv⟩ := hu
    rw [← hv, User.resetLastScoreChange]

/-- C10: the id setter accepts every integer (zero and negatives included)
and stores it, and rejects every non-integer with a `RangeError`, in which
case no new state is produced (the stored id is untouched). -/
theorem claim_C10_id_setter (c : Chat) (q : ℚ) :
    (∀ n : ℤ, setId c (n : ℚ) = Except.ok { c with id := (n : ℚ) }) ∧
    (q.den = 1 → setId c q = Except.ok { c with id := q }) ∧
    (q.den ≠ 1 → setId c q = Except.error "The id must be a whole number!") := by
  refine ⟨?_, ?_, ?_⟩
  · intro n
    have h : jsRemOne ((n : ℚ)) = 0 := (jsRemOne_eq_zero_iff _).mpr (Rat.den_intCast n)
    rw [setId, if_neg (by simp [h])]
  · intro h
    have h0 : jsRemOne q = 0 := (jsRemOne_eq_zero_iff _).mpr h
    rw [setId, if_neg (by simp [h0])]
  · intro h
    have h0 : jsRemOne q ≠ 0 := fun hz => h ((jsRemOne_eq_zero_iff _).mp hz)
    rw [setId, if_pos h0]

/-- Witness for C10: a negative integer is accepted, 3/2 is rejected. -/
theorem claim_C10_witness :
    setId baseChat ((-5 : ℤ) : ℚ) = Except.ok { baseChat with id := ((-5 : ℤ) : ℚ) } ∧
    setId baseChat (3/2 : ℚ) = Except.error "The id must be a whole number!" :=
  ⟨(claim_C10_id_setter baseChat (3/2)).1 (-5),
   (claim_C10_id_setter baseChat (3/2)).2.2 (by norm_num)⟩

/-- C7: `hardcoreModeCheck` is the identity when the hardcore setting is
off; when it is on, every user whose `lastScoreTimestamp` is at least
86400 seconds before `t` loses `max(round(score * 0.1), 10)` points and
has `lastScoreTimestamp` set to `t`, and every other user is unchanged. -/
theorem claim_C7_hardcore_mode_check (c : Chat) (t : Int) :
    (c.hardcoreMode = false → hardcoreModeCheck c t = c) ∧
    (c.hardcoreMode = true →
      (hardcoreModeCheck c t).users.length = c.users.length ∧
      ∀ (i : Nat) (hi : i < c.users.length)
        (hi' : i < (hardcoreModeCheck c t).users.length),
        (t - (c.users[i]).lastScoreTimestamp ≥ 86400 →
          ((hardcoreModeCheck c t).users[i]).score =
            (c.users[i]).score - max (jsRound (((c.users[i]).score : ℚ) * (1/10))) 10 ∧
          ((hardcoreModeCheck c t).users[i]).lastScoreTimestamp = t) ∧
        (t - (c.users[i]).lastScoreTimestamp < 86400 →
          (hardcoreModeCheck c t).users[i] = c.users[i])) := by
  constructor
  · intro h
    rw [hardcoreModeCheck, if_neg (by simp [h])]
  · intro h
    rw [hardcoreModeCheck, if_pos h]
    refine ⟨by simp, ?_⟩
    intro i hi hi'
    have h86 : (24 * 60 * 60 : ℤ) = 86400 := by norm_num
    constructor
    · intro hstale
      simp only [List.getElem_map, h86, if_pos hstale]
      exact ⟨by simp [User.addToScore, sub_eq_add_neg], rfl⟩
    · intro hfresh
      simp only [List.getElem_map, h86, if_neg (not_le.mpr hfresh)]

/-- A chat with hardcore mode off and one long-inactive user. -/
def chatHardcoreOff : Chat := { baseChat with users := [⟨1, "A", 100, 0, 0, false⟩] }

/-- The same chat with hardcore mode on. -/
def chatHardcoreOn : Chat :=
  { baseChat with hardcoreMode := true, users := [⟨1, "A", 100, 0, 0, false⟩] }

/-- Witness for C7: with hardcore mode off nothing changes; with it on the
inactive user at score 100 drops to 90 (10% = 10 = the minimum). -/
theorem claim_C7_witness :
    hardcoreModeCheck chatHardcoreOff 200000 = chatHardcoreOff ∧
    (hardcoreModeCheck chatHardcoreOn 200000).users.map User.score = [90] := by
  refine ⟨(claim_C7_hardcore_mode_check chatHardcoreOff 200000).1 rfl, ?_⟩
  have hr : jsRound ((10 : ℚ)) = 10 := jsRound_eq _ _ (by norm_num) (by norm_num)
  dsimp only [hardcoreModeCheck, chatHardcoreOn, baseChat]
  norm_num [User.addToScore, hr]

/-- Counterexample to C3 as stated: with `running = false` but
`awaitingResetConfirmation` equal to the sender, a "YES" reply still
resets every score — here user 1's score drops from 5 to 0. -/
def chatStoppedAwaiting : Chat :=
  { baseChat with awaitingResetConfirmation := 1, users := [⟨1, "A", 5, 0, 0, false⟩] }

/-- C3 counterexample: the claim "running = false implies no score ever
changes, whatever `awaitingResetConfirmation`" is false: a confirmed reset
in a stopped chat zeroes the score 5. -/
theorem claim_C3_counterexample :
    chatStoppedAwaiting.running = false ∧
    chatStoppedAwaiting.users.map User.score = [5] ∧
    (processMessage chatStoppedAwaiting stubEnv 1 "A" "YES" 0 ⟨10, 0, 0⟩).1.users.map
      User.score = [0] := by
  refine ⟨rfl, rfl, ?_⟩
  rw [processMessage, if_neg (by decide)]
  simp only
  rw [if_pos (by decide)]
  rw [handleAwaitingReset, if_pos (by decide), if_pos (by decide)]
  rfl

/-- C3 amended: with `running = false`, a `processMessage` call whose
sender is not the user awaited by `awaitingResetConfirmation` leaves the
whole chat state, in particular every score, unchanged. -/
theorem claim_C3_amended_not_running_frame (c : Chat) (env : Env) (userId : Int)
    (userName msgText : String) (msgUnixTime : Int) (now : Now)
    (hrun : c.running = false) (hawait : c.awaitingResetConfirmation ≠ userId) :
    (processMessage c env userId userName msgText msgUnixTime now).1 = c ∧
    (processMessage c env userId userName msgText msgUnixTime now).1.users.map User.score
      = c.users.map User.score := by
  have hmain : (processMessage c env userId userName msgText msgUnixTime now).1 = c := by
    rw [processMessage]
    split
    · rfl
    · simp only
      rw [if_neg (by simp [hawait]), if_neg (by simp [hrun])]
  exact ⟨hmain, by rw [hmain]⟩

/-- Witness for C3 (amended) at a concrete stopped chat. -/
theorem claim_C3_witness :
    (processMessage { baseChat with users := [⟨1, "A", 5, 0, 0, false⟩] } stubEnv 1 "A"
      "YES" 0 ⟨10, 0, 0⟩).1 = { baseChat with users := [⟨1, "A", 5, 0, 0, false⟩] } :=
  (claim_C3_amended_not_running_frame _ stubEnv 1 "A" "YES" 0 ⟨10, 0, 0⟩ rfl
    (by decide)).1

/-- C2: a non-stale `processMessage` call from the user the chat is
awaiting reset confirmation from always clears
`awaitingResetConfirmation` to the sentinel −1; exactly on a
case-insensitive "YES" every score becomes 0, the output contains the
reset message opening with the FINAL-labelled leaderboard, and the
leaderboard-reset extension point's output is appended; on any other text
nothing else happens. -/
theorem claim_C2_reset_confirmation (c : Chat) (env : Env) (userId : Int)
    (userName msgText : String) (msgUnixTime : Int) (now : Now)
    (hawait : c.awaitingResetConfirmation = userId)
    (hfresh : now.unix - msgUnixTime < 60) :
    (processMessage c env userId userName msgText msgUnixTime
        now).1.awaitingResetConfirmation = -1 ∧
    (jsToUpper msgText = "YES" →
      (processMessage c env userId userName msgText msgUnixTime now).1 =
        { (generateLeaderboard { c with awaitingResetConfirmation := -1 } true).1 with
          users := (generateLeaderboard { c with awaitingResetConfirmation := -1 }
            true).1.users.map User.resetScore } ∧
      (∀ u ∈ (processMessage c env userId userName msgText msgUnixTime now).1.users,
        u.score = 0) ∧
      (processMessage c env userId userName msgText msgUnixTime now).2.1 =
        env.trigger (.preMessage msgText) ++
        ["Leaderboard has been reset!\n\n" ++
          (generateLeaderboard { c with awaitingResetConfirmation := -1 } true).2] ++
        env.trigger .leaderboardReset ++
        env.trigger (.postMessage (env.cleanText msgText)) ∧
      (∃ rest : String,
        (generateLeaderboard { c with awaitingResetConfirmation := -1 } true).2 =
          "<b>🏆 FINAL LEADERBOARD</b>\n" ++ rest) ∧
      (processMessage c env userId userName msgText msgUnixTime now).2.2 =
        [.preMessage msgText, .leaderboardReset, .postMessage (env.cleanText msgText)]) ∧
    (jsToUpper msgText ≠ "YES" →
      (processMessage c env userId userName msgText msgUnixTime now).1 =
        { c with awaitingResetConfirmation := -1 } ∧
      (processMessage c env userId userName msgText msgUnixTime now).2.1 =
        env.trigger (.preMessage msgText) ++
          env.trigger (.postMessage (env.cleanText msgText)) ∧
      (processMessage c env userId userName msgText msgUnixTime now).2.2 =
        [.preMessage msgText, .postMessage (env.cleanText msgText)]) := by
  have hstale : ¬(now.unix - msgUnixTime ≥ 60) := not_le.mpr hfresh
  have hbeq : (c.awaitingResetConfirmation == userId) = true := by simp [hawait]
  by_cases hyes : jsToUpper msgText = "YES"
  · have hA : handleAwaitingReset c env userId msgText =
        ({ (generateLeaderboard { c with awaitingResetConfirmation := -1 } true).1 with
            users := (generateLeaderboard { c with awaitingResetConfirmation := -1 }
              true).1.users.map User.resetScore },
         ["Leaderboard has been reset!\n\n" ++
           (generateLeaderboard { c with awaitingResetConfirmation := -1 } true).2] ++
           env.trigger .leaderboardReset,
         [.leaderboardReset]) := by
      rw [handleAwaitingReset, if_pos hbeq, if_pos (by simp [hyes])]
    have hP : processMessage c env userId userName msgText msgUnixTime now =
        ({ (generateLeaderboard { c with awaitingResetConfirmation := -1 } true).1 with
            users := (generateLeaderboard { c with awaitingResetConfirmation := -1 }
              true).1.users.map User.resetScore },
         env.trigger (.preMessage msgText) ++
           (["Leaderboard has been reset!\n\n" ++
             (generateLeaderboard { c with awaitingResetConfirmation := -1 } true).2] ++
             env.trigger .leaderboardReset) ++
           env.trigger (.postMessage (env.cleanText msgText)),
         [.preMessage msgText] ++ [PluginEvent.leaderboardReset] ++
           [.postMessage (env.cleanText msgText)]) := by
      rw [processMessage, if_neg hstale]
      dsimp only
      rw [if_pos hbeq, hA]
    refine ⟨by rw [hP]; rfl, fun _ => ⟨by rw [hP], ?_, by rw [hP]; simp, ⟨_, rfl⟩,
      by rw [hP]; rfl⟩, fun hn => absurd hyes hn⟩
    intro u hu
    rw [hP] at hu
    simp only [List.mem_map] at hu
    obtain ⟨v, -, hv⟩ := hu
    rw [← hv, User.resetScore]
  · have hA : handleAwaitingReset c env userId msgText =
        ({ c with awaitingResetConfirmation := -1 }, [], []) := by
      rw [handleAwaitingReset, if_pos hbeq, if_neg (by simp [hyes])]
    have hP : processMessage c env userId userName msgText msgUnixTime now =
        ({ c with awaitingResetConfirmation := -1 },
         env.trigger (.preMessage msgText) ++ [] ++
           env.trigger (.postMessage (env.cleanText msgText)),
         [.preMessage msgText] ++ ([] : List PluginEvent) ++
           [.postMessage (env.cleanText msgText)]) := by
      rw [processMessage, if_neg hstale]
      dsimp only
      rw [if_pos hbeq, hA]
    exact ⟨by rw [hP], fun hy => absurd hy hyes,
      fun _ => ⟨by rw [hP], by rw [hP]; simp, by rw [hP]; simp⟩⟩

/-- A running chat whose pending reset confirmation belongs to user 7,
who has a nonzero score. -/
def chatAwaitingSeven : Chat :=
  { baseChat with
      running := true
      awaitingResetConfirmation := 7
      users := [⟨7, "X", 5, 0, 0, false⟩] }

/-- Witness for C2: user 7 replies "yes" (lower case): the flag clears and
the score resets to 0. -/
theorem claim_C2_witness :
    (processMessage chatAwaitingSeven stubEnv 7 "X" "yes" 990
        ⟨12, 0, 1000⟩).1.awaitingResetConfirmation = -1 ∧
    ∀ u ∈ (processMessage chatAwaitingSeven stubEnv 7 "X" "yes" 990 ⟨12, 0, 1000⟩).1.users,
      u.score = 0 := by
  have h := claim_C2_reset_confirmation chatAwaitingSeven stubEnv 7 "X" "yes" 990
    ⟨12, 0, 1000⟩ rfl (by decide)
  exact ⟨h.1, (h.2.1 (by decide)).2.1⟩

/-- A running chat with a foreign pending reset confirmation (user 99)
and one slot at 10:00. -/
def chatPendingOther : Chat :=
  { baseChat with
      running := true
      awaitingResetConfirmation := 99
      users := [⟨1, "A", 5, 0, 0, false⟩]
      dankTimes := [⟨10, 0, ["bacon"], 10⟩] }

/-- C9 counterexample: as stated the claim asserts dispatch to the
dank-time handler whenever `running` is true, but a stale message (sent
1000 − 0 ≥ 60 seconds before "now") is discarded instead: `processMessage`
leaves the state unchanged while the handler would have changed it. -/
theorem claim_C9_counterexample :
    chatPendingOther.running = true ∧
    chatPendingOther.awaitingResetConfirmation ≠ -1 ∧
    chatPendingOther.awaitingResetConfirmation ≠ 1 ∧
    processMessage chatPendingOther stubEnv 1 "A" "bacon" 0 ⟨11, 0, 1000⟩ =
      (chatPendingOther, [], []) ∧
    (handleDankTimeInputMessage chatPendingOther stubEnv 1 "A" "bacon" ⟨11, 0, 1000⟩).1 ≠
      chatPendingOther := by
  refine ⟨rfl, by decide, by decide, ?_, by decide⟩
  rw [processMessage, if_pos (by decide)]

/-- C9 amended: a non-stale `processMessage` call whose sender is not the
awaited user leaves `awaitingResetConfirmation` unchanged (the
confirmation window stays open), and is dispatched to the ordinary
dank-time handler exactly when `running` is true. -/
theorem claim_C9_amended_window_stays_open (c : Chat) (env : Env) (userId : Int)
    (userName msgText : String) (msgUnixTime : Int) (now : Now)
    (_hne : c.awaitingResetConfirmation ≠ -1)
    (hawait : c.awaitingResetConfirmation ≠ userId)
    (hfresh : now.unix - msgUnixTime < 60) :
    (processMessage c env userId userName msgText msgUnixTime
        now).1.awaitingResetConfirmation = c.awaitingResetConfirmation ∧
    (c.running = true →
      (processMessage c env userId userName msgText msgUnixTime now).1 =
        (handleDankTimeInputMessage c env userId userName msgText now).1 ∧
      (processMessage c env userId userName msgText msgUnixTime now).2.1 =
        env.trigger (.preMessage msgText) ++
          (handleDankTimeInputMessage c env userId userName msgText now).2.1 ++
          env.trigger (.postMessage (env.cleanText msgText))) ∧
    (c.running = false →
      (processMessage c env userId userName msgText msgUnixTime now).1 = c) := by
  have hstale : ¬(now.unix - msgUnixTime ≥ 60) := not_le.mpr hfresh
  have hbeq : ¬((c.awaitingResetConfirmation == userId) = true) := by simp [hawait]
  cases hrun : c.running with
  | true =>
      have hP : processMessage c env userId userName msgText msgUnixTime now =
          ((handleDankTimeInputMessage c env userId userName msgText now).1,
           env.trigger (.preMessage msgText) ++
             (handleDankTimeInputMessage c env userId userName msgText now).2.1 ++
             env.trigger (.postMessage (env.cleanText msgText)),
           [.preMessage msgText] ++
             (handleDankTimeInputMessage c env userId userName msgText now).2.2 ++
             [.postMessage (env.cleanText msgText)]) := by
        rw [processMessage, if_neg hstale]
        dsimp only
        rw [if_neg hbeq, if_pos hrun]
      refine ⟨?_, fun _ => ⟨by rw [hP], by rw [hP]⟩, fun hf => absurd hf (by decide)⟩
      rw [hP]
      exact handleDankTimeInputMessage_awaiting c env userId userName msgText now
  | false =>
      have hP : processMessage c env userId userName msgText msgUnixTime now =
          (c, env.trigger (.preMessage msgText) ++ [] ++
            env.trigger (.postMessage (env.cleanText msgText)),
           [.preMessage msgText] ++ ([] : List PluginEvent) ++
             [.postMessage (env.cleanText msgText)]) := by
        rw [processMessage, if_neg hstale]
        dsimp only
        rw [if_neg hbeq, if_neg (by simp [hrun])]
      exact ⟨by rw [hP], fun ht => absurd ht (by decide), fun _ => by rw [hP]⟩

/-- Witness for C9 (amended): a fresh "bacon" message in
`chatPendingOther` keeps the window for user 99 open. -/
theorem claim_C9_witness :
    (processMessage chatPendingOther stubEnv 1 "A" "bacon" 990
        ⟨11, 0, 1000⟩).1.awaitingResetConfirmation =
      chatPendingOther.awaitingResetConfirmation :=
  (claim_C9_amended_window_stays_open chatPendingOther stubEnv 1 "A" "bacon" 990
    ⟨11, 0, 1000⟩ (by decide) (by decide) (by decide)).1

/-- A running chat whose only slot has a negative point value (reachable
through runtime mutation of a slot's points). -/
def chatNegativeSlot : Chat :=
  { baseChat with
      running := true
      users := [⟨1, "A", 0, 0, 0, false⟩]
      dankTimes := [⟨10, 0, ["bacon"], -5⟩] }

/-- C4 counterexample: "bacon" at 11:00 matches only the 10:00 slot whose
points are −5; the claim says the score decreases by that highest value
(−5, i.e. the score would become 0 − (−5) = 5), but the code's punishment
accumulator starts at 0 and only ever grows, so the score stays 0. -/
theorem claim_C4_counterexample :
    getDankTimesByText chatNegativeSlot "bacon" = [⟨10, 0, ["bacon"], -5⟩] ∧
    (∀ dt ∈ getDankTimesByText chatNegativeSlot "bacon",
      timeMatches ⟨11, 0, 0⟩ dt = false) ∧
    (handleDankTimeInputMessage chatNegativeSlot stubEnv 1 "A" "bacon"
      ⟨11, 0, 0⟩).1.users.map User.score = [0] ∧
    ¬((0 : Int) = 0 - (-5)) := by decide

/-- C4 amended: when the text matches at least one slot but none of the
matched slots is at the current local time, the sender loses exactly
`max 0 h` points, where `h` is the highest point value among the matched
slots (the accumulator starts at 0, so a negative highest value punishes
by 0, not by the negative value itself), and the score-change extension
point fires with that delta. -/
theorem claim_C4_amended_wrong_time_punishment (c : Chat) (env : Env) (userId : Int)
    (userName msgText : String) (now : Now) (u : User)
    (hne : getDankTimesByText c msgText ≠ [])
    (hmiss : ∀ d ∈ getDankTimesByText c msgText, timeMatches now d = false)
    (hu : findUser (ensureUser c userId userName).users userId = some u) :
    findUser (handleDankTimeInputMessage c env userId userName msgText now).1.users
        userId =
      some (u.addToScore
        (-(getDankTimesByText c msgText).foldl (fun a d => max a d.points) 0) now.unix) ∧
    (handleDankTimeInputMessage c env userId userName msgText now).2.2 =
      [.userScoreChange userId
        (-(getDankTimesByText c msgText).foldl (fun a d => max a d.points) 0)] ∧
    (u.addToScore
        (-(getDankTimesByText c msgText).foldl (fun a d => max a d.points) 0)
        now.unix).score =
      u.score - (getDankTimesByText c msgText).foldl (fun a d => max a d.points) 0 := by
  have hE : (getDankTimesByText c msgText).isEmpty = false := by
    cases hl : getDankTimesByText c msgText with
    | nil => exact absurd hl hne
    | cons d t => rfl
  have hloop : handleDankTimeInputMessage c env userId userName msgText now =
      dankTimeLoop (ensureUser c userId userName) env userId now []
        ((getDankTimesByText c msgText).foldl subtractStep 0) := by
    rw [handleDankTimeInputMessage, hE]
    simp only [Bool.false_eq_true, if_false]
    rw [show getDankTimesByText c msgText =
      getDankTimesByText c msgText ++ [] from (List.append_nil _).symm]
    rw [dankTimeLoop_skip _ env userId now _ [] 0 hmiss]
    rw [List.append_nil]
  have hfold : (getDankTimesByText c msgText).foldl subtractStep 0 =
      (getDankTimesByText c msgText).foldl (fun a d => max a d.points) 0 :=
    foldl_subtractStep_eq_max _ 0
  refine ⟨?_, ?_, by rw [User.addToScore]; exact (sub_eq_add_neg _ _).symm⟩
  · rw [hloop, dankTimeLoop]
    simp only
    rw [hfold]
    rw [findUser_updateUser (fun v => v.addToScore
        (-(getDankTimesByText c msgText).foldl (fun a d => max a d.points) 0) now.unix)
      (fun v => rfl), hu]
    rfl
  · rw [hloop, dankTimeLoop, hfold]

/-- A running chat with one slot and an existing user at score 7. -/
def chatPunish : Chat :=
  { baseChat with
      running := true
      users := [⟨1, "A", 7, 0, 0, false⟩]
      dankTimes := [⟨10, 0, ["bacon"], 10⟩] }

/-- Witness for C4 (amended): "bacon" at 11:00 costs its 10 points. -/
theorem claim_C4_witness :
    findUser (handleDankTimeInputMessage chatPunish stubEnv 1 "A" "bacon"
      ⟨11, 0, 50⟩).1.users 1 = some ⟨1, "A", -3, -10, 50, false⟩ := by
  have h := claim_C4_amended_wrong_time_punishment chatPunish stubEnv 1 "A" "bacon"
    ⟨11, 0, 50⟩ ⟨1, "A", 7, 0, 0, false⟩ (by decide) (by decide) (by decide)
  rw [h.1]
  decide

/-- C1: scoring on the first text-matched slot whose hour/minute equal
the current local time. If the slot differs from `(lastHour, lastMinute)`
the called flags are reset, `lastHour`/`lastMinute` move to the slot, and
the sender gains `round(points × multiplier × (1.5 if handicapped))` with
`called` set true; if the slot is already active and the sender has
`called = false`, the gain is `round(points × (1.5 if handicapped))`
without the multiplier, again setting `called`; if the sender already has
`called = true`, the score drops by exactly `points`, unrounded and
unmultiplied. -/
theorem claim_C1_danktime_scoring (c : Chat) (env : Env) (userId : Int)
    (userName msgText : String) (now : Now) (pre rest : List DankTime)
    (dt : DankTime) (u : User)
    (hmatch : getDankTimesByText c msgText = pre ++ dt :: rest)
    (hpre : ∀ d ∈ pre, timeMatches now d = false)
    (hdt : timeMatches now dt = true)
    (hu : findUser (ensureUser c userId userName).users userId = some u) :
    (¬(c.lastHour = dt.hour ∧ c.lastMinute = dt.minute) →
      findUser (handleDankTimeInputMessage c env userId userName msgText now).1.users
          userId =
        some { u.addToScore
            (jsRound ((dt.points : ℚ) * c.multiplier *
              (if userDeservesHandicapBonus
                  { ensureUser c userId userName with
                      users := (ensureUser c userId userName).users.map
                        (fun v => { v with called := false })
                      lastHour := dt.hour
                      lastMinute := dt.minute } userId
               then 3/2 else 1)))
            now.unix with called := true } ∧
      (handleDankTimeInputMessage c env userId userName msgText now).1.lastHour =
        dt.hour ∧
      (handleDankTimeInputMessage c env userId userName msgText now).1.lastMinute =
        dt.minute ∧
      ∀ v ∈ (handleDankTimeInputMessage c env userId userName msgText now).1.users,
        v.id ≠ userId → v.called = false) ∧
    (c.lastHour = dt.hour → c.lastMinute = dt.minute → u.called = false →
      findUser (handleDankTimeInputMessage c env userId userName msgText now).1.users
          userId =
        some { u.addToScore
            (jsRound ((dt.points : ℚ) *
              (if userDeservesHandicapBonus (ensureUser c userId userName) userId
               then 3/2 else 1)))
            now.unix with called := true } ∧
      (handleDankTimeInputMessage c env userId userName msgText now).1.lastHour =
        c.lastHour ∧
      (handleDankTimeInputMessage c env userId userName msgText now).1.lastMinute =
        c.lastMinute) ∧
    (c.lastHour = dt.hour → c.lastMinute = dt.minute → u.called = true →
      findUser (handleDankTimeInputMessage c env userId userName msgText now).1.users
          userId = some (u.addToScore (-dt.points) now.unix)) := by
  have hres : handleDankTimeInputMessage c env userId userName msgText now =
      dankTimeBranch (ensureUser c userId userName) env userId now dt := by
    rw [handleDankTimeInputMessage, hmatch]
    have hE : (pre ++ dt :: rest).isEmpty = false := by cases pre <;> rfl
    rw [hE]
    simp only [Bool.false_eq_true, if_false]
    rw [dankTimeLoop_skip _ env userId now pre (dt :: rest) 0 hpre,
      dankTimeLoop_cons_match _ env userId now dt rest _ hdt]
  refine ⟨?_, ?_, ?_⟩
  · intro hA
    have hcond : ((ensureUser c userId userName).lastHour != dt.hour ||
        (ensureUser c userId userName).lastMinute != dt.minute) = true := by
      rw [ensureUser_lastHour, ensureUser_lastMinute]
      rcases not_and_or.mp hA with h | h <;> simp [bne_iff_ne, h]
    rw [hres, dankTimeBranch]
    dsimp only
    rw [if_pos hcond]
    refine ⟨?_, rfl, rfl, ?_⟩
    · rw [findUser_update_award, findUser_map_resetCalled, hu]
      cases hbonus : userDeservesHandicapBonus
        { ensureUser c userId userName with
            users := (ensureUser c userId userName).users.map
              (fun v => { v with called := false })
            lastHour := dt.hour
            lastMinute := dt.minute } userId <;>
        simp [hbonus, User.addToScore, mul_one]
    · intro v hv hvid
      simp only [updateUser, List.mem_map] at hv
      obtain ⟨w, hw, hww⟩ := hv
      by_cases hid : (({ w with called := false } : User).id == userId) = true
      · rw [if_pos hid] at hww
        exact absurd (by rw [← hww]; simpa using hid) hvid
      · rw [if_neg hid] at hww
        rw [← hww]
        obtain ⟨a, -, ha⟩ := hw
        rw [← ha]
  · intro hH hM hC
    have hcond : ¬(((ensureUser c userId userName).lastHour != dt.hour ||
        (ensureUser c userId userName).lastMinute != dt.minute) = true) := by
      rw [ensureUser_lastHour, ensureUser_lastMinute]
      simp [hH, hM]
    have hUC : (((findUser (ensureUser c userId userName).users userId).map
        User.called).getD false) = false := by rw [hu]; exact hC
    rw [hres, dankTimeBranch]
    dsimp only
    rw [if_neg hcond, if_neg (by simp [hUC])]
    refine ⟨?_, by rw [ensureUser_lastHour], by rw [ensureUser_lastMinute]⟩
    rw [findUser_update_award, hu]
    cases hbonus : userDeservesHandicapBonus (ensureUser c userId userName) userId <;>
      simp [hbonus, User.addToScore, mul_one]
  · intro hH hM hC
    have hcond : ¬(((ensureUser c userId userName).lastHour != dt.hour ||
        (ensureUser c userId userName).lastMinute != dt.minute) = true) := by
      rw [ensureUser_lastHour, ensureUser_lastMinute]
      simp [hH, hM]
    have hUC : (((findUser (ensureUser c userId userName).users userId).map
        User.called).getD false) = true := by rw [hu]; exact hC
    rw [hres, dankTimeBranch]
    dsimp only
    rw [if_neg hcond, if_pos (by simp [hUC])]
    rw [findUser_update_add, hu]
    rfl

/-- The spec's concrete scenario chat: multiplier 2, one slot
10:00 "bacon" worth 10 points, users A and B. -/
def chatBacon : Chat :=
  { baseChat with
      running := true
      users := [⟨1, "A", 0, 0, 0, false⟩, ⟨2, "B", 0, 0, 0, false⟩]
      dankTimes := [⟨10, 0, ["bacon"], 10⟩] }

/-- Witness for C1: user A sends "bacon" at exactly 10:00 while the slot
is newly active: score 20 = round(10 × 2), `called` set, the slot
recorded. -/
theorem claim_C1_witness :
    findUser (handleDankTimeInputMessage chatBacon stubEnv 1 "A" "bacon"
        ⟨10, 0, 1000⟩).1.users 1 = some ⟨1, "A", 20, 20, 1000, true⟩ ∧
    (handleDankTimeInputMessage chatBacon stubEnv 1 "A" "bacon"
        ⟨10, 0, 1000⟩).1.lastHour = 10 ∧
    (handleDankTimeInputMessage chatBacon stubEnv 1 "A" "bacon"
        ⟨10, 0, 1000⟩).1.lastMinute = 0 := by
  have h := claim_C1_danktime_scoring chatBacon stubEnv 1 "A" "bacon" ⟨10, 0, 1000⟩
    [] [] ⟨10, 0, ["bacon"], 10⟩ ⟨1, "A", 0, 0, 0, false⟩ (by decide) (by simp)
    (by decide) (by decide)
  have hA := h.1 (by decide)
  have hb : userDeservesHandicapBonus
      { ensureUser chatBacon 1 "A" with
          users := (ensureUser chatBacon 1 "A").users.map
            (fun v => { v with called := false })
          lastHour := (⟨10, 0, ["bacon"], 10⟩ : DankTime).hour
          lastMinute := (⟨10, 0, ["bacon"], 10⟩ : DankTime).minute } 1 = false := by
    decide
  rw [hb] at hA
  simp only [Bool.false_eq_true, if_false] at hA
  have hval : (((⟨10, 0, ["bacon"], 10⟩ : DankTime).points : ℚ) *
      chatBacon.multiplier * 1) = 20 := by
    norm_num [chatBacon, baseChat]
  rw [hval] at hA
  have hr : jsRound (20 : ℚ) = 20 := jsRound_eq _ _ (by norm_num) (by norm_num)
  rw [hr] at hA
  exact ⟨by rw [hA.1]; decide, hA.2.1, hA.2.2.1⟩

/-- A scaled random draw in [0,1) floors to at most `n`. -/
lemma floorScale_le (r : ℚ) (n : Nat) (_h0 : 0 ≤ r) (h1 : r < 1) :
    floorScale r (n + 1) ≤ n := by
  rw [floorScale, Int.toNat_le]
  have hpos : (0 : ℚ) < ((n + 1 : Nat) : ℚ) := by positivity
  have hlt : r * ((n + 1 : Nat) : ℚ) < ((n + 1 : Nat) : ℚ) := by
    calc r * ((n + 1 : Nat) : ℚ) < 1 * ((n + 1 : Nat) : ℚ) :=
          mul_lt_mul_of_pos_right h1 hpos
    _ = ((n + 1 : Nat) : ℚ) := one_mul _
  have hfl : Int.floor (r * ((n + 1 : Nat) : ℚ)) < ((n : ℤ) + 1) :=
    Int.floor_lt.mpr (by push_cast; push_cast at hlt; linarith)
  omega

/-- The per-slot well-formedness facts maintained by the random-slot
generation loop. -/
def goodRandomSlot (normal : List DankTime) (nowHour : Nat) (pts : Int)
    (dt : DankTime) : Prop :=
  (∃ d ≤ 22, dt.hour = (nowHour + d) % 24) ∧ dt.hour ≤ 23 ∧ dt.minute ≤ 58 ∧
  dt.texts = [padNumber dt.hour ++ padNumber dt.minute] ∧ dt.points = pts ∧
  ∀ e ∈ normal, ¬(e.hour = dt.hour ∧ e.minute = dt.minute)

/-- Invariant of `genRandomLoop`: well-formed accumulated slots stay
well-formed, pairwise time-distinct, and the loop adds at most one slot
per consumed draw. -/
lemma genRandomLoop_invariant (normal : List DankTime) (nowHour : Nat) (pts : Int) :
    ∀ (draws : List (ℚ × ℚ)) (acc : List DankTime),
    (∀ p ∈ draws, 0 ≤ p.1 ∧ p.1 < 1 ∧ 0 ≤ p.2 ∧ p.2 < 1) →
    (∀ dt ∈ acc, goodRandomSlot normal nowHour pts dt) →
    acc.Pairwise (fun a b => ¬(a.hour = b.hour ∧ a.minute = b.minute)) →
    (∀ dt ∈ genRandomLoop normal nowHour pts draws acc,
      goodRandomSlot normal nowHour pts dt) ∧
    (genRandomLoop normal nowHour pts draws acc).Pairwise
      (fun a b => ¬(a.hour = b.hour ∧ a.minute = b.minute)) ∧
    (genRandomLoop normal nowHour pts draws acc).length ≤ acc.length + draws.length := by
  intro draws
  induction draws with
  | nil =>
      intro acc _ hacc hpw
      exact ⟨hacc, hpw, by simp [genRandomLoop]⟩
  | cons p rest ih =>
      intro acc hb hacc hpw
      obtain ⟨h01, h11, h02, h12⟩ := hb p (by simp)
      obtain ⟨r1, r2⟩ := p
      have hbrest : ∀ q ∈ rest, 0 ≤ q.1 ∧ q.1 < 1 ∧ 0 ≤ q.2 ∧ q.2 < 1 :=
        fun q hq => hb q (List.mem_cons_of_mem _ hq)
      rw [genRandomLoop]
      split
      · have h := ih acc hbrest hacc hpw
        exact ⟨h.1, h.2.1, h.2.2.trans (by simp)⟩
      · rename_i hreg
        rw [hourAndMinuteAlreadyRegistered] at hreg
        simp only [Bool.or_eq_true, not_or, List.any_eq_true, Bool.and_eq_true,
          beq_iff_eq, not_exists, not_and] at hreg
        have hd22 : floorScale r1 23 ≤ 22 := floorScale_le r1 22 h01 h11
        have hm58 : floorScale r2 59 ≤ 58 := floorScale_le r2 58 h02 h12
        have hh23 : (nowHour + floorScale r1 23) % 24 ≤ 23 := by
          have := Nat.mod_lt (nowHour + floorScale r1 23) (show 0 < 24 by norm_num)
          omega
        have hgood : goodRandomSlot normal nowHour pts
            ⟨(nowHour + floorScale r1 23) % 24, floorScale r2 59,
              [padNumber ((nowHour + floorScale r1 23) % 24) ++
                padNumber (floorScale r2 59)], pts⟩ := by
          refine ⟨⟨floorScale r1 23, hd22, rfl⟩, hh23, hm58, rfl, rfl, ?_⟩
          intro e he hcol
          exact hreg.1 e he hcol.1 hcol.2
        have hacc' : ∀ dt ∈ acc ++ [⟨(nowHour + floorScale r1 23) % 24,
            floorScale r2 59, [padNumber ((nowHour + floorScale r1 23) % 24) ++
              padNumber (floorScale r2 59)], pts⟩], goodRandomSlot normal nowHour pts dt := by
          intro dt hdt
          rcases List.mem_append.mp hdt with h | h
          · exact hacc dt h
          · rw [List.mem_singleton.mp h]
            exact hgood
        have hpw' : (acc ++ [(⟨(nowHour + floorScale r1 23) % 24, floorScale r2 59,
            [padNumber ((nowHour + floorScale r1 23) % 24) ++
              padNumber (floorScale r2 59)], pts⟩ : DankTime)]).Pairwise
            (fun a b => ¬(a.hour = b.hour ∧ a.minute = b.minute)) := by
          rw [List.pairwise_append]
          refine ⟨hpw, by simp, ?_⟩
          intro a ha b hb'
          rw [List.mem_singleton.mp hb']
          intro hcol
          exact hreg.2 a ha hcol.1 hcol.2
        have h := ih _ hbrest hacc' hpw'
        refine ⟨h.1, h.2.1, h.2.2.trans ?_⟩
        simp
        omega

/-- A chat requesting exactly one random slot. -/
def chatOneRandom : Chat := { baseChat with numberOfRandomTimes := 1 }

/-- C5 counterexample: at local hour 1 with draw 22/23 the loop adds
0–22 hours to the *current* hour, producing the slot hour
(1 + 22) % 24 = 23, outside the claimed range [0,22]. -/
theorem claim_C5_counterexample :
    (generateRandomDankTimes chatOneRandom 1 [(22/23, 0)]).2.map DankTime.hour = [23] ∧
    ¬(23 ≤ 22) := by
  constructor
  · have h1 : floorScale (22/23) 23 = 22 := floorScale_eq _ _ _ (by norm_num) (by norm_num)
    have h2 : floorScale 0 59 = 0 := floorScale_eq _ _ _ (by norm_num) (by norm_num)
    simp [generateRandomDankTimes, genRandomLoop, h1, h2,
      hourAndMinuteAlreadyRegistered, chatOneRandom, baseChat]
  · decide

/-- C5 amended: `generateRandomDankTimes` replaces the random-slot list
with the freshly generated one; each produced slot's hour is the current
local hour plus an offset in [0,22] (mod 24) — hence in [0,23], not
[0,22] as claimed — its minute is in [0,58], its single alias is the
zero-padded hour concatenated with the zero-padded minute, its points are
`pointsPerRandomTime`; a drawn pair colliding with a normal slot or an
already-generated random slot is dropped without retry (so the produced
slots collide with no normal slot and are pairwise distinct in time), and
the result length is at most `numberOfRandomTimes`. -/
theorem claim_C5_amended_random_generation (c : Chat) (nowHour : Nat)
    (draws : List (ℚ × ℚ))
    (hdraws : ∀ p ∈ draws, 0 ≤ p.1 ∧ p.1 < 1 ∧ 0 ≤ p.2 ∧ p.2 < 1) :
    (generateRandomDankTimes c nowHour draws).1.randomDankTimes =
      (generateRandomDankTimes c nowHour draws).2 ∧
    (generateRandomDankTimes c nowHour draws).2.length ≤ c.numberOfRandomTimes ∧
    (∀ dt ∈ (generateRandomDankTimes c nowHour draws).2,
      goodRandomSlot c.dankTimes nowHour c.pointsPerRandomTime dt) ∧
    (generateRandomDankTimes c nowHour draws).2.Pairwise
      (fun a b => ¬(a.hour = b.hour ∧ a.minute = b.minute)) := by
  have hb : ∀ p ∈ draws.take c.numberOfRandomTimes,
      0 ≤ p.1 ∧ p.1 < 1 ∧ 0 ≤ p.2 ∧ p.2 < 1 :=
    fun p hp => hdraws p (List.take_subset _ _ hp)
  have h := genRandomLoop_invariant c.dankTimes nowHour c.pointsPerRandomTime
    (draws.take c.numberOfRandomTimes) [] hb (by simp) (by simp)
  refine ⟨rfl, ?_, h.1, h.2.1⟩
  have hlen := h.2.2
  simp only [List.length_nil, Nat.zero_add, List.length_take] at hlen
  exact hlen.trans (by omega)

/-- Witness for C5 (amended) on a concrete draw: at most one slot is
produced and every produced slot is well-formed. -/
theorem claim_C5_witness :
    (generateRandomDankTimes chatOneRandom 1 [(22/23, 0)]).2.length ≤ 1 ∧
    ∀ dt ∈ (generateRandomDankTimes chatOneRandom 1 [(22/23, 0)]).2,
      goodRandomSlot chatOneRandom.dankTimes 1 chatOneRandom.pointsPerRandomTime dt := by
  have h := claim_C5_amended_random_generation chatOneRandom 1 [(22/23, 0)]
    (by
      intro p hp
      rw [List.mem_singleton.mp hp]
      norm_num)
  exact ⟨h.2.1, h.2.2.1⟩

end DankTimesBot
